import Mathlib

/-!
Verification of the depchk dependency-checking core.

The development shallowly embeds the Rust sources:
  * `src/npm.rs`   — `NpmDependency` (constraint parsing, satisfaction test,
                     per-dependency version check against the npm registry);
  * `src/lib.rs`   — `check_dependencies` (the batch checker), `Mismatches`,
                     `VersionMismatch`;
  * `src/main.rs`  — `DependencyCheckErrors`, `handle_dependency_result`,
                     `to_mismatches`, `check_npm` (aggregation and the
                     overall success/failure decision).

Network I/O (`reqwest`) is abstracted as an explicit `fetch` oracle passed to
`check_version`; file I/O and output rendering are outside the modelled core.
The external `node_semver` library (semantic versions and ranges, the npm
constraint grammar) is embedded below for the grammar fragment the repository
exercises: comparator ranges (`>=`, `<=`, `>`, `<`, `=`), caret and tilde
shorthand, bare (partial) versions, whitespace-joined AND comparators and
`||`-joined OR alternatives.  A parsed range is a list of bound sets, exactly
node_semver's `Range(Vec<BoundSet>)` representation; the original constraint
text is not retained after parsing.

Rust `panic!` sites (`unwrap` on a failed parse) are modelled by `Option`:
`none` is a panic, `some x` a normal return.  Fallible Rust results are
`Except String` where the `String` is the error's displayable message.
-/

/-! ### Character-level helpers (string processing is done on `List Char`) -/

/-- Numeric value of a list of decimal digit characters (most significant
first). -/
def digitsVal (cs : List Char) : Nat :=
  cs.foldl (fun acc c => acc * 10 + (c.toNat - 48)) 0

/-- Parses a nonempty all-digit character list as a decimal number. -/
def decimalValue (cs : List Char) : Option Nat :=
  if !cs.isEmpty && cs.all Char.isDigit then some (digitsVal cs) else none

/-- Splits a character list on every occurrence of the separator character.
`splitCharList '.' "a.b" = ["a", "b"]` (as character lists). -/
def splitCharList (sep : Char) : List Char → List (List Char)
  | [] => [[]]
  | c :: rest =>
    let groups := splitCharList sep rest
    if c = sep then [] :: groups
    else
      match groups with
      | [] => [[c]]
      | g :: gs => (c :: g) :: gs

/-- Splits a character list at the first occurrence of the separator:
returns the part before it and, when the separator occurs, the part after. -/
def splitFirstChar (sep : Char) : List Char → List Char × Option (List Char)
  | [] => ([], none)
  | c :: rest =>
    if c = sep then ([], some rest)
    else
      let p := splitFirstChar sep rest
      (c :: p.1, p.2)

/-- Characters allowed in a semver pre-release / build identifier:
ASCII alphanumerics and the hyphen. -/
def isIdentChar (c : Char) : Bool :=
  c.isAlphanum || c = '-'

/-- A valid dot-separated identifier: nonempty, identifier characters only. -/
def validIdent (cs : List Char) : Bool :=
  !cs.isEmpty && cs.all isIdentChar

/-! ### Semantic versions (model of `node_semver::Version`) -/

/-- A semantic version: `major.minor.patch` with optional pre-release and
build identifier lists, as stored by `node_semver::Version`. -/
structure Version where
  major : Nat
  minor : Nat
  patch : Nat
  prerelease : List String
  build : List String
deriving DecidableEq, Repr

/-- Parses `major.minor.patch[-pre][+build]` from characters; `none` when the
text is not a valid semantic version (missing or non-numeric components,
empty identifiers). -/
def parseVersionChars (cs : List Char) : Option Version := do
  let core := splitFirstChar '+' cs
  let buildIds ←
    match core.2 with
    | none => pure ([] : List String)
    | some b =>
      let ids := splitCharList '.' b
      if ids.all validIdent then pure (ids.map (fun l => ⟨l⟩)) else none
  let main := splitFirstChar '-' core.1
  let preIds ←
    match main.2 with
    | none => pure ([] : List String)
    | some p =>
      let ids := splitCharList '.' p
      if ids.all validIdent then pure (ids.map (fun l => ⟨l⟩)) else none
  match (splitCharList '.' main.1).mapM decimalValue with
  | some [ma, mi, pa] =>
    some { major := ma, minor := mi, patch := pa,
           prerelease := preIds, build := buildIds }
  | _ => none

/-- Parses a version string; models `str::parse::<node_semver::Version>`. -/
def parseVersion (s : String) : Option Version :=
  parseVersionChars s.toList

/-! ### Semantic-version precedence (semver.org ordering) -/

/-- Three-way comparison of naturals. -/
def cmpNat (a b : Nat) : Ordering :=
  if a < b then .lt else if a = b then .eq else .gt

/-- Three-way ASCII comparison of character lists. -/
def cmpChars : List Char → List Char → Ordering
  | [], [] => .eq
  | [], _ :: _ => .lt
  | _ :: _, [] => .gt
  | a :: as, b :: bs =>
    (cmpNat a.toNat b.toNat).then (cmpChars as bs)

/-- Comparison of one pre-release identifier: numeric identifiers compare
numerically and are lower than alphanumeric ones; alphanumeric identifiers
compare in ASCII order. -/
def cmpIdent (a b : String) : Ordering :=
  let na := a.toList.all Char.isDigit
  let nb := b.toList.all Char.isDigit
  if na && nb then cmpNat (digitsVal a.toList) (digitsVal b.toList)
  else if na then .lt
  else if nb then .gt
  else cmpChars a.toList b.toList

/-- Comparison of nonempty pre-release identifier lists; a shorter list that
is a prefix of the other is lower. -/
def cmpPreLists : List String → List String → Ordering
  | [], [] => .eq
  | [], _ :: _ => .lt
  | _ :: _, [] => .gt
  | a :: as, b :: bs => (cmpIdent a b).then (cmpPreLists as bs)

/-- Semantic-version precedence: lexicographic on the numeric triple; a
version with a pre-release list precedes the same triple without one; build
metadata is ignored. -/
def versionCompare (v w : Version) : Ordering :=
  ((cmpNat v.major w.major).then
    ((cmpNat v.minor w.minor).then (cmpNat v.patch w.patch))).then
  (match v.prerelease, w.prerelease with
   | [], [] => .eq
   | [], _ :: _ => .gt
   | _ :: _, [] => .lt
   | as, bs => cmpPreLists as bs)

/-! ### Ranges (model of `node_semver::Range`) -/

/-- One end of a bound set: unbounded, or an inclusive/exclusive version
bound; models `node_semver`'s `Predicate`. -/
inductive Predicate where
  | excluding (v : Version)
  | including (v : Version)
  | unbounded
deriving DecidableEq, Repr

/-- A contiguous interval of versions, given by a lower and an upper
predicate; models `node_semver`'s `BoundSet`. -/
structure BoundSet where
  lower : Predicate
  upper : Predicate
deriving DecidableEq, Repr

/-- A version range: the union of its bound sets, exactly `node_semver`'s
`Range(Vec<BoundSet>)`.  Only the parsed structure is stored; the textual
form the range was parsed from is not retained. -/
abbrev Range : Type := List BoundSet

/-- Does the version lie above the lower predicate? -/
def lowerHolds (p : Predicate) (v : Version) : Bool :=
  match p with
  | .unbounded => true
  | .including l => versionCompare l v ≠ .gt
  | .excluding l => versionCompare l v = .lt

/-- Does the version lie below the upper predicate? -/
def upperHolds (p : Predicate) (v : Version) : Bool :=
  match p with
  | .unbounded => true
  | .including u => versionCompare v u ≠ .gt
  | .excluding u => versionCompare v u = .lt

/-- Does the predicate name a version with the same `major.minor.patch`
triple as `v` and a nonempty pre-release list?  Used for the standard
semver rule that pre-release versions only match ranges that mention a
pre-release on the same triple. -/
def predAllowsPre (p : Predicate) (v : Version) : Bool :=
  match p with
  | .unbounded => false
  | .including w | .excluding w =>
    w.major = v.major && w.minor = v.minor && w.patch = v.patch &&
      !w.prerelease.isEmpty

/-- Satisfaction against one bound set: inside both bounds, and a
pre-release version additionally requires one of the bounds to carry a
pre-release on the same triple. -/
def boundSetSatisfies (bs : BoundSet) (v : Version) : Bool :=
  lowerHolds bs.lower v && upperHolds bs.upper v &&
    (v.prerelease.isEmpty || predAllowsPre bs.lower v || predAllowsPre bs.upper v)

/-- Satisfaction of a range (`node_semver`'s `Range::satisfies`): the
version satisfies some bound set of the union. -/
def Range.satisfies (r : Range) (v : Version) : Bool :=
  r.any (fun bs => boundSetSatisfies bs v)

/-! ### Range parsing (the node_semver constraint grammar fragment used by
the repository: comparators, caret/tilde shorthand, partial versions,
space-joined AND, `||`-joined OR) -/

/-- Splits a character list on every occurrence of the two-character
separator `||`. -/
def splitDoublePipe : List Char → List (List Char)
  | [] => [[]]
  | '|' :: '|' :: rest => [] :: splitDoublePipe rest
  | c :: rest =>
    match splitDoublePipe rest with
    | [] => [[c]]
    | g :: gs => (c :: g) :: gs

/-- A possibly partial version written in a comparator: a major component
(`none` = wildcard), optional minor and patch components, and pre-release /
build identifiers. -/
structure Comparand where
  major : Option Nat
  minor : Option Nat
  patch : Option Nat
  pre : List String
  build : List String
deriving DecidableEq, Repr

/-- One numeric-or-wildcard component: `some none` is a wildcard
(`x`/`X`/`*`), `some (some n)` a number, `none` invalid. -/
def componentValue (cs : List Char) : Option (Option Nat) :=
  if cs = ['x'] || cs = ['X'] || cs = ['*'] then some none
  else (decimalValue cs).map some

/-- Parses the version part of a comparator (after any operator): one to
three dot-separated numeric or wildcard components with optional
pre-release and build identifiers; pre-release identifiers require a full
numeric triple. -/
def parseComparand (cs : List Char) : Option Comparand := do
  let withBuild := splitFirstChar '+' cs
  let buildIds ←
    match withBuild.2 with
    | none => pure ([] : List String)
    | some b =>
      let ids := splitCharList '.' b
      if ids.all validIdent then pure (ids.map (fun l => ⟨l⟩)) else none
  let main := splitFirstChar '-' withBuild.1
  let preIds ←
    match main.2 with
    | none => pure ([] : List String)
    | some p =>
      let ids := splitCharList '.' p
      if ids.all validIdent then pure (ids.map (fun l => ⟨l⟩)) else none
  let comps ← (splitCharList '.' main.1).mapM componentValue
  let c : Comparand ←
    match comps with
    | [none] | [none, _] | [none, _, _] =>
      some { major := none, minor := none, patch := none,
             pre := preIds, build := buildIds }
    | [some ma] =>
      some { major := some ma, minor := none, patch := none,
             pre := preIds, build := buildIds }
    | [some ma, mi] =>
      some { major := some ma, minor := mi, patch := none,
             pre := preIds, build := buildIds }
    | [some ma, mi, pa] =>
      some { major := some ma, minor := mi,
             patch := if mi.isNone then none else pa,
             pre := preIds, build := buildIds }
    | _ => none
  if preIds.isEmpty || (c.minor.isSome && c.patch.isSome) then some c else none

/-- The comparator operators of the grammar fragment. -/
inductive RangeOp where
  | ge | le | gt | lt | exact | caret | tilde | bare
deriving DecidableEq, Repr

/-- Fills the missing components of a comparand with zeros. -/
def fillVersion (ma : Nat) (mi pa : Option Nat) (pre : List String) : Version :=
  ⟨ma, mi.getD 0, pa.getD 0, pre, []⟩

/-- Desugars one comparator into a bound set, following the node-semver
rules for partial versions under each operator (`>=0.10` means `>=0.10.0`,
`>1.2` means `>=1.3.0`, `^0.12` means `>=0.12.0 <0.13.0`, and so on). -/
def desugarComparator (op : RangeOp) (c : Comparand) : BoundSet :=
  match c.major with
  | none => ⟨.unbounded, .unbounded⟩
  | some ma =>
    let lo := fillVersion ma c.minor c.patch c.pre
    match op with
    | .bare | .exact =>
      match c.minor, c.patch with
      | some _, some _ => ⟨.including lo, .including lo⟩
      | some mi, none => ⟨.including lo, .excluding ⟨ma, mi + 1, 0, [], []⟩⟩
      | none, _ => ⟨.including lo, .excluding ⟨ma + 1, 0, 0, [], []⟩⟩
    | .ge => ⟨.including lo, .unbounded⟩
    | .gt =>
      match c.minor, c.patch with
      | some _, some _ => ⟨.excluding lo, .unbounded⟩
      | some mi, none => ⟨.including ⟨ma, mi + 1, 0, [], []⟩, .unbounded⟩
      | none, _ => ⟨.including ⟨ma + 1, 0, 0, [], []⟩, .unbounded⟩
    | .le =>
      match c.minor, c.patch with
      | some _, some _ => ⟨.unbounded, .including lo⟩
      | some mi, none => ⟨.unbounded, .excluding ⟨ma, mi + 1, 0, [], []⟩⟩
      | none, _ => ⟨.unbounded, .excluding ⟨ma + 1, 0, 0, [], []⟩⟩
    | .lt => ⟨.unbounded, .excluding lo⟩
    | .caret =>
      let up : Version :=
        if ma > 0 then ⟨ma + 1, 0, 0, [], []⟩
        else
          match c.minor with
          | none => ⟨1, 0, 0, [], []⟩
          | some mi =>
            match c.patch with
            | none => ⟨0, mi + 1, 0, [], []⟩
            | some pa => if mi > 0 then ⟨0, mi + 1, 0, [], []⟩ else ⟨0, 0, pa + 1, [], []⟩
      ⟨.including lo, .excluding up⟩
    | .tilde =>
      match c.minor with
      | none => ⟨.including lo, .excluding ⟨ma + 1, 0, 0, [], []⟩⟩
      | some mi => ⟨.including lo, .excluding ⟨ma, mi + 1, 0, [], []⟩⟩

/-- Parses one comparator token: an optional operator followed by a
(possibly partial) version. -/
def parseComparator (cs : List Char) : Option BoundSet :=
  match cs with
  | '>' :: '=' :: rest => (parseComparand rest).map (desugarComparator .ge)
  | '<' :: '=' :: rest => (parseComparand rest).map (desugarComparator .le)
  | '>' :: rest => (parseComparand rest).map (desugarComparator .gt)
  | '<' :: rest => (parseComparand rest).map (desugarComparator .lt)
  | '=' :: rest => (parseComparand rest).map (desugarComparator .exact)
  | '^' :: rest => (parseComparand rest).map (desugarComparator .caret)
  | '~' :: rest => (parseComparand rest).map (desugarComparator .tilde)
  | rest => (parseComparand rest).map (desugarComparator .bare)

/-- Ordering of lower-bound predicates: unbounded is lowest; on equal
versions an exclusive lower bound is stricter (higher) than an inclusive
one. -/
def cmpLower (a b : Predicate) : Ordering :=
  match a, b with
  | .unbounded, .unbounded => .eq
  | .unbounded, _ => .lt
  | _, .unbounded => .gt
  | .including x, .including y => versionCompare x y
  | .excluding x, .excluding y => versionCompare x y
  | .including x, .excluding y => (versionCompare x y).then .lt
  | .excluding x, .including y => (versionCompare x y).then .gt

/-- Ordering of upper-bound predicates: unbounded is highest; on equal
versions an exclusive upper bound is stricter (lower) than an inclusive
one. -/
def cmpUpper (a b : Predicate) : Ordering :=
  match a, b with
  | .unbounded, .unbounded => .eq
  | .unbounded, _ => .gt
  | _, .unbounded => .lt
  | .including x, .including y => versionCompare x y
  | .excluding x, .excluding y => versionCompare x y
  | .including x, .excluding y => (versionCompare x y).then .gt
  | .excluding x, .including y => (versionCompare x y).then .lt

/-- Intersection of two bound sets: the stricter lower bound with the
stricter upper bound. -/
def intersectBoundSets (a b : BoundSet) : BoundSet :=
  ⟨if cmpLower a.lower b.lower = .lt then b.lower else a.lower,
   if cmpUpper a.upper b.upper = .gt then b.upper else a.upper⟩

/-- Parses one `||`-alternative: whitespace-separated comparators
intersected into a single bound set. -/
def parseAlternative (cs : List Char) : Option BoundSet := do
  let tokens := (splitCharList ' ' cs).filter (fun t => !t.isEmpty)
  if tokens.isEmpty then none
  else
    let sets ← tokens.mapM parseComparator
    some (sets.foldl intersectBoundSets ⟨.unbounded, .unbounded⟩)

/-- Parses a range string (`str::parse::<node_semver::Range>`): the union of
its `||`-separated alternatives; `none` when any alternative fails to parse
(for example comma-separated or `!=` comparators, which the grammar does not
have). -/
def parseRange (s : String) : Option Range :=
  (splitDoublePipe s.toList).mapM parseAlternative

/-! ### Range serialization (model of the `Display` rendering of the parsed
`Range` structure; note it is a function of the parsed bound sets only,
since the original text is not stored) -/

/-- Renders a version as `major.minor.patch[-pre][+build]`. -/
def versionToString (v : Version) : String :=
  toString v.major ++ "." ++ toString v.minor ++ "." ++ toString v.patch ++
    (if v.prerelease.isEmpty then "" else "-" ++ String.intercalate "." v.prerelease) ++
    (if v.build.isEmpty then "" else "+" ++ String.intercalate "." v.build)

/-- Renders one bound set in comparator form, for example
`>=0.12.0 <0.13.0`, or a bare version for an exact bound set. -/
def boundSetToString (bs : BoundSet) : String :=
  match bs.lower, bs.upper with
  | .unbounded, .unbounded => "*"
  | .unbounded, .including u => "<=" ++ versionToString u
  | .unbounded, .excluding u => "<" ++ versionToString u
  | .including l, .unbounded => ">=" ++ versionToString l
  | .excluding l, .unbounded => ">" ++ versionToString l
  | .including l, .including u =>
    if l = u then versionToString l
    else ">=" ++ versionToString l ++ " <=" ++ versionToString u
  | .including l, .excluding u => ">=" ++ versionToString l ++ " <" ++ versionToString u
  | .excluding l, .including u => ">" ++ versionToString l ++ " <=" ++ versionToString u
  | .excluding l, .excluding u => ">" ++ versionToString l ++ " <" ++ versionToString u

/-- Renders a range: its bound sets joined with `||`
(models `node_semver::Range`'s `to_string`). -/
def rangeToString (r : Range) : String :=
  String.intercalate "||" (r.map boundSetToString)

/-! ### The depchk data model (`src/lib.rs`) -/

/-- A detected violation (`VersionMismatch` in `src/lib.rs`): the
dependency's name, the serialized constraint, and the offending version. -/
structure VersionMismatch where
  name : String
  constraint : String
  version : String
deriving DecidableEq, Repr

/-- The report value (`Mismatches` in `src/lib.rs`): regular and
dev-dependency mismatches. -/
structure Mismatches where
  dependencies : List VersionMismatch
  dev_dependencies : List VersionMismatch
deriving DecidableEq, Repr

/-- `Mismatches::concat` (`src/lib.rs` lines 49-56): moves the regular
mismatches and then the dev mismatches into one vector. -/
def Mismatches.concat (m : Mismatches) : List VersionMismatch :=
  m.dependencies ++ m.dev_dependencies

/-! ### The npm dependency (`src/npm.rs`) -/

/-- `NpmDependency`: a parsed version range, the package name, and the
registry URL built from the name. -/
structure NpmDependency where
  version : Range
  name : String
  api_url : String
deriving DecidableEq, Repr

/-- The slice of the registry response the checker reads
(`PackageData` in `src/npm.rs`): the latest version string. -/
structure PackageData where
  version : String
deriving DecidableEq, Repr

/-- `NpmDependency::try_new` (`src/npm.rs` lines 69-77): parses the version
text as a range; `none` when parsing fails, otherwise the dependency with
the given name, the parsed range, and the registry URL. -/
def NpmDependency.try_new (name version : String) : Option NpmDependency :=
  (parseRange version).map (fun parsed =>
    { name := name, version := parsed,
      api_url := "https://registry.npmjs.org/" ++ name ++ "/latest" })

/-- `NpmDependency::is_satisfied_by` (`src/npm.rs` lines 121-125): parses the
version string and unwraps (`none` models the panic on an unparseable
string), then tests range satisfaction. -/
def NpmDependency.is_satisfied_by (d : NpmDependency) (version : String) :
    Option Bool :=
  (parseVersion version).map (fun parsed => d.version.satisfies parsed)

/-- `NpmDependency::check_version` (`src/npm.rs` lines 102-115).  The network
request and JSON decoding (`client.get(..).send().await?` and
`res.json().await?`) are abstracted as the `fetch` oracle: an error from it
is propagated by `?` as the check's error.  On a fetched version the
satisfaction test runs (its possible panic propagates as `none`); a
satisfied constraint yields `ok none`, otherwise the mismatch value is
built from the name, the serialized parsed range, and the fetched version
string. -/
def NpmDependency.check_version (fetch : String → Except String PackageData)
    (d : NpmDependency) : Option (Except String (Option VersionMismatch)) :=
  match fetch d.api_url with
  | .error e => some (.error e)
  | .ok package_data =>
    match d.is_satisfied_by package_data.version with
    | none => none
    | some true => some (.ok none)
    | some false =>
      some (.ok (some { name := d.name,
                        constraint := rangeToString d.version,
                        version := package_data.version }))

/-! ### The batch checker (`src/lib.rs` lines 86-105) -/

/-- The second loop of `check_dependencies` (`src/lib.rs` lines 96-104):
keeps a result when it is an error or carries a mismatch — mapping
`Ok(Some(m))` to `Ok(m)` — and drops `Ok(None)` results. -/
def collectResults (handlers : List (Except String (Option VersionMismatch))) :
    List (Except String VersionMismatch) :=
  handlers.filterMap (fun result =>
    match result with
    | .error e => some (.error e)
    | .ok (some mismatch) => some (.ok mismatch)
    | .ok none => none)

/-- `check_dependencies` (`src/lib.rs` lines 86-105), generic over the
`Dependency` trait: the first loop awaits `check_version` for each
dependency in order (`check` is the trait method with the client applied),
the second collects the error-or-mismatch results. -/
def check_dependencies {T : Type}
    (check : T → Except String (Option VersionMismatch)) (dependencies : List T) :
    List (Except String VersionMismatch) :=
  collectResults (dependencies.map check)

/-! ### Aggregation (`src/main.rs`) -/

/-- `DependencyCheckErrors` (`src/main.rs` lines 30-34): the collected
errors (represented by their displayable messages) and the precomputed
display string `msg`. -/
structure DependencyCheckErrors where
  errors : List String
  msg : String
deriving DecidableEq, Repr

/-- `DependencyCheckErrors::new` (`src/main.rs` lines 64-71): stores the
errors and precomputes `msg` as their messages joined with newlines. -/
def DependencyCheckErrors.new (err : List String) : DependencyCheckErrors :=
  { errors := err, msg := String.intercalate "\n" err }

/-- `DependencyCheckErrors::join` (`src/main.rs` lines 73-75): appends the
other collection's error list onto this one.  The `msg` field is left as it
was — the source does not recompute it. -/
def DependencyCheckErrors.join (self other : DependencyCheckErrors) :
    DependencyCheckErrors :=
  { errors := self.errors ++ other.errors, msg := self.msg }

/-- The derived `Default` of `DependencyCheckErrors`: empty error list,
empty message. -/
def DependencyCheckErrors.default : DependencyCheckErrors :=
  { errors := [], msg := "" }

/-- `handle_dependency_result` (`src/main.rs` lines 90-99): partitions the
results on `is_ok` (Rust's `partition` keeps each side in input order),
unwraps the mismatches and the errors, and wraps the errors in a
`DependencyCheckErrors`.  The unwraps cannot panic because the partition
separates the constructors, so they are modelled by `filterMap`. -/
def handle_dependency_result (results : List (Except String VersionMismatch)) :
    List VersionMismatch × DependencyCheckErrors :=
  let p := results.partition (fun res => res.toBool)
  let mismatches := p.1.filterMap (fun res => res.toOption)
  let errs := p.2.filterMap (fun res =>
    match res with
    | .error e => some e
    | .ok _ => none)
  (mismatches, DependencyCheckErrors.new errs)

/-- `to_mismatches` (`src/main.rs` lines 142-168), with the two network
check runs abstracted as their result lists: aggregates the regular
results, aggregates the dev results only when `include_dev_dependencies` is
set (otherwise `None` and a default error collection), and joins the dev
errors onto the regular ones.  Building the HTTP client is outside the
modelled core. -/
def to_mismatches (results : List (Except String VersionMismatch))
    (include_dev_dependencies : Bool)
    (devResults : List (Except String VersionMismatch)) :
    (List VersionMismatch × Option (List VersionMismatch)) × DependencyCheckErrors :=
  let handled := handle_dependency_result results
  let dev :=
    if include_dev_dependencies then
      let handledDev := handle_dependency_result devResults
      (some handledDev.1, handledDev.2)
    else (none, DependencyCheckErrors.default)
  ((handled.1, dev.1), handled.2.join dev.2)

/-- The checking core of `check_npm` (`src/main.rs` lines 170-192), from the
check results onward: aggregate via `to_mismatches`, render the mismatches
(rendering is outside the modelled core; the mismatches are returned
instead), then fail exactly when the joined error list is nonempty.
Manifest parsing, which precedes this and has its own failure exit, is the
external parser's concern (spec section 1). -/
def check_npm (results : List (Except String VersionMismatch))
    (include_dev_dependencies : Bool)
    (devResults : List (Except String VersionMismatch)) :
    Except DependencyCheckErrors
      (List VersionMismatch × Option (List VersionMismatch)) :=
  let aggregated := to_mismatches results include_dev_dependencies devResults
  if aggregated.2.errors.isEmpty then .ok aggregated.1 else .error aggregated.2

/-! ### The execution order of the batch checker's loop -/

/-- An observable event of one dependency's check: the check starts, or the
check finishes (with whatever outcome). -/
inductive CheckEvent where
  | start (i : Nat)
  | finish (i : Nat)
deriving DecidableEq, Repr

/-- The event trace of the first loop of `check_dependencies`
(`src/lib.rs` lines 90-94) over `n` dependencies.  The future returned by
`check_version` is created and immediately `.await`ed inside the loop body,
so iteration `i` drives check `i` from start to finish before iteration
`i + 1` begins; the loop emits `start i, finish i` for `i = 0, …, n-1` in
order.  No task is spawned. -/
def checkDependenciesTrace : Nat → List CheckEvent
  | 0 => []
  | n + 1 => checkDependenciesTrace n ++ [CheckEvent.start n, CheckEvent.finish n]

/-! ### Spec-side selectors (the aggregation described by the spec, used to
state the characterization theorems) -/

/-- The mismatches among a list of check outcomes, in input order. -/
def mismatchesOfOutcomes (outcomes : List (Except String (Option VersionMismatch))) :
    List VersionMismatch :=
  outcomes.filterMap (fun o =>
    match o with
    | .ok (some m) => some m
    | _ => none)

/-- The errors among a list of check outcomes, in input order. -/
def errorsOfOutcomes (outcomes : List (Except String (Option VersionMismatch))) :
    List String :=
  outcomes.filterMap (fun o =>
    match o with
    | .error e => some e
    | _ => none)

/-- The errors among a list of collected results, in input order. -/
def errorsOfResults (results : List (Except String VersionMismatch)) :
    List String :=
  results.filterMap (fun r =>
    match r with
    | .error e => some e
    | .ok _ => none)

/-! ### Shared concrete values and helper lemmas -/

/-- The dependency `NpmDependency::try_new("axios", "^0.12")` constructs:
the caret constraint desugars to the bound set `>=0.12.0 <0.13.0`. -/
def axiosDep : NpmDependency :=
  { version := [⟨.including ⟨0, 12, 0, [], []⟩, .excluding ⟨0, 13, 0, [], []⟩⟩],
    name := "axios",
    api_url := "https://registry.npmjs.org/axios/latest" }

/-- The ok-side of the partition in `handle_dependency_result`: filtering
to the `Ok` results and unwrapping them keeps exactly the mismatches, in
order. -/
theorem filter_ok_filterMap_toOption
    (rs : List (Except String VersionMismatch)) :
    (rs.filter (fun res => res.toBool)).filterMap Except.toOption =
      rs.filterMap Except.toOption := by
  induction rs with
  | nil => rfl
  | cons r rs ih =>
    cases r <;> simp_all [List.filter_cons, List.filterMap_cons, Except.toBool,
      Except.toOption]

/-- The error side of the partition in `handle_dependency_result`: filtering
to the `Err` results and unwrapping them keeps exactly the errors, in
order. -/
theorem filter_notok_filterMap_err
    (rs : List (Except String VersionMismatch)) :
    ((rs.filter (not ∘ fun res => res.toBool)).filterMap fun res =>
        match res with
        | .error e => some e
        | .ok _ => none) = errorsOfResults rs := by
  induction rs with
  | nil => rfl
  | cons r rs ih =>
    cases r <;> simp_all [List.filter_cons, List.filterMap_cons, Except.toBool,
      errorsOfResults]

/-- `handle_dependency_result` keeps the mismatches and the errors each in
input order: Rust's `partition` preserves the relative order of both
sides. -/
theorem handle_dependency_result_eq
    (results : List (Except String VersionMismatch)) :
    handle_dependency_result results =
      (results.filterMap Except.toOption,
       DependencyCheckErrors.new (errorsOfResults results)) := by
  simp only [handle_dependency_result, List.partition_eq_filter_filter]
  rw [filter_ok_filterMap_toOption, filter_notok_filterMap_err]

/-! ### Claim C1 — the batch checker's output -/

/-- C1 (counterexample): the claim says `check_dependencies` returns exactly
one outcome per input dependency and that a `NoMismatch` outcome is never
silently dropped.  On one dependency whose check returns `Ok(None)`
(no mismatch), the returned vector is empty — the `NoMismatch` outcome is
dropped (lines 99-101 of `src/lib.rs` push only error or mismatch
results), so the output has no entry at the input's position. -/
theorem c1_counterexample :
    check_dependencies
        (fun _ : NpmDependency =>
          (Except.ok none : Except String (Option VersionMismatch)))
        [axiosDep] = [] ∧
      [axiosDep].length = 1 := by
  exact ⟨rfl, rfl⟩

/-- C1 (amended): `check_dependencies` returns, in input order, one entry
for each dependency whose check yields an error or a mismatch; checks that
find no mismatch contribute no entry (the output type has no `NoMismatch`
variant).  Stated as the `filterMap` characterization, which fixes both the
membership and the order of the output. -/
theorem c1_check_dependencies_characterization {T : Type}
    (check : T → Except String (Option VersionMismatch))
    (dependencies : List T) :
    check_dependencies check dependencies =
      dependencies.filterMap (fun d =>
        match check d with
        | .error e => some (.error e)
        | .ok (some mismatch) => some (.ok mismatch)
        | .ok none => none) := by
  simp only [check_dependencies, collectResults, List.filterMap_map]
  rfl

/-! ### Claim C8 — constraint construction from manifest text -/

/-- C8: `NpmDependency::try_new` returns `None` exactly when the manifest's
version text is not a parseable range; on parseable text it builds the
dependency with the given name, the parsed constraint, and the registry URL
derived from the name. -/
theorem c8_try_new_parse (name version : String) :
    (NpmDependency.try_new name version = none ↔ parseRange version = none) ∧
    (∀ r, parseRange version = some r →
      NpmDependency.try_new name version =
        some { version := r, name := name,
               api_url := "https://registry.npmjs.org/" ++ name ++ "/latest" }) := by
  constructor
  · cases h : parseRange version <;> simp [NpmDependency.try_new, h]
  · intro r h
    simp [NpmDependency.try_new, h]

/-- C8 (witness): at the repository's own doctest inputs — the unparseable
`">=0.10,!=0.11,<0.13"` gives `None`, the caret range `"^0.12"` gives the
dependency with the parsed bound set. -/
theorem c8_witness :
    NpmDependency.try_new "axios" ">=0.10,!=0.11,<0.13" = none ∧
    NpmDependency.try_new "axios" "^0.12" = some axiosDep := by
  refine ⟨(c8_try_new_parse "axios" ">=0.10,!=0.11,<0.13").1.mpr (by decide), ?_⟩
  have h := (c8_try_new_parse "axios" "^0.12").2 axiosDep.version (by decide)
  simpa [axiosDep] using h

/-! ### Claim C9 — the caret-shorthand example -/

/-- C9: for the constraint `^0.12`, the satisfaction test returns `true`
for version `0.12.1` and `false` for version `0.13.0` (`some` is a normal,
non-panicking return of `is_satisfied_by`). -/
theorem c9_caret_satisfaction :
    NpmDependency.try_new "axios" "^0.12" = some axiosDep ∧
    axiosDep.is_satisfied_by "0.12.1" = some true ∧
    axiosDep.is_satisfied_by "0.13.0" = some false := by
  decide

/-! ### Claim C10 — `Mismatches::concat` -/

/-- C10: `concat` returns the regular mismatches followed by the
dev-dependency mismatches, each group in its original order, with total
length the sum of the two input lengths. -/
theorem c10_concat_append (m : Mismatches) :
    m.concat.length = m.dependencies.length + m.dev_dependencies.length ∧
    (∀ i, i < m.dependencies.length → m.concat[i]? = m.dependencies[i]?) ∧
    (∀ j, j < m.dev_dependencies.length →
      m.concat[m.dependencies.length + j]? = m.dev_dependencies[j]?) := by
  refine ⟨List.length_append _ _, ?_, ?_⟩
  · intro i hi
    exact List.getElem?_append_left hi
  · intro j hj
    rw [Mismatches.concat, List.getElem?_append_right (Nat.le_add_right _ _)]
    simp

/-- C10 (witness): `concat` on one regular and one dev mismatch. -/
theorem c10_witness :
    (Mismatches.concat ⟨[⟨"a", "c", "v"⟩], [⟨"b", "d", "w"⟩]⟩).length = 2 ∧
    (Mismatches.concat ⟨[⟨"a", "c", "v"⟩], [⟨"b", "d", "w"⟩]⟩)[0]? =
      some ⟨"a", "c", "v"⟩ ∧
    (Mismatches.concat ⟨[⟨"a", "c", "v"⟩], [⟨"b", "d", "w"⟩]⟩)[1]? =
      some ⟨"b", "d", "w"⟩ := by
  have h := c10_concat_append ⟨[⟨"a", "c", "v"⟩], [⟨"b", "d", "w"⟩]⟩
  refine ⟨h.1, ?_, ?_⟩
  · simpa using h.2.1 0 (by decide)
  · simpa using h.2.2 0 (by decide)

/-! ### Claim C4 — totality of the satisfaction test -/

/-- C4 (counterexample): the claim says `is_satisfied_by` returns a bool
for every version string without panicking; but the source unwraps the
version parse (`version.parse().unwrap()`, `src/npm.rs` line 122), so on an
unparseable version string the call panics (`none` in the model) instead of
returning a bool. -/
theorem c4_counterexample :
    axiosDep.is_satisfied_by "not-a-version" = none := by
  decide

/-- C4 (amended): for every constraint and every parseable version string,
`is_satisfied_by` returns a bool — the range-satisfaction verdict of the
parsed version — and, being a pure function of its arguments, repeated
calls yield identical results; on an unparseable version string the call
panics. -/
theorem c4_is_satisfied_by_total_on_parseable (d : NpmDependency)
    (version : String) (h : (parseVersion version).isSome) :
    ∃ b, d.is_satisfied_by version = some b := by
  cases hp : parseVersion version with
  | none => rw [hp] at h; cases h
  | some ver =>
    exact ⟨d.version.satisfies ver, by simp [NpmDependency.is_satisfied_by, hp]⟩

/-- C4 (witness): the amended theorem at the concrete constraint `^0.12`
and the parseable version `0.12.1`. -/
theorem c4_witness :
    ∃ b, axiosDep.is_satisfied_by "0.12.1" = some b :=
  c4_is_satisfied_by_total_on_parseable axiosDep "0.12.1" (by decide)

/-! ### Claim C5 — merging error collections -/

/-- C5 (code bug): `DependencyCheckErrors::join` concatenates the error
lists in primary-then-secondary order, as the claim says; but it never
recomputes `msg`, so the combined error's displayable message stays the
primary's message alone (`"first error"`), not the newline-joined
concatenation of every constituent's message
(`"first error\nsecond error"`).  The invariant established by
`DependencyCheckErrors::new` — `msg` is the newline-join of the messages of
`errors` — is broken by `join`, so the displayed text omits every secondary
error. -/
theorem c5_join_stale_msg :
    (DependencyCheckErrors.join (DependencyCheckErrors.new ["first error"])
        (DependencyCheckErrors.new ["second error"])).errors =
      ["first error", "second error"] ∧
    (DependencyCheckErrors.join (DependencyCheckErrors.new ["first error"])
        (DependencyCheckErrors.new ["second error"])).msg = "first error" ∧
    "first error" ≠ "first error\nsecond error" := by
  refine ⟨rfl, rfl, by decide⟩

/-! ### Claim C2 — the per-dependency check -/

/-- C2 (amended): `check_version` composes the resolver and the constraint
engine: a failed fetch makes the outcome that error; on a fetched (and
parseable) version string, a satisfied constraint yields `NoMismatch`
(`Ok(None)`), otherwise a `Mismatch` carrying the dependency's name, the
string serialization of the parsed constraint — not necessarily the
manifest's original text, which is not retained — and the fetched version
string. -/
theorem c2_check_version_composition (d : NpmDependency)
    (fetch : String → Except String PackageData) :
    (∀ e, fetch d.api_url = .error e →
      NpmDependency.check_version fetch d = some (.error e)) ∧
    (∀ pd ver, fetch d.api_url = .ok pd → parseVersion pd.version = some ver →
      if d.version.satisfies ver then
        NpmDependency.check_version fetch d = some (.ok none)
      else
        NpmDependency.check_version fetch d =
          some (.ok (some { name := d.name,
                            constraint := rangeToString d.version,
                            version := pd.version }))) := by
  constructor
  · intro e he
    simp [NpmDependency.check_version, he]
  · intro pd ver hf hv
    by_cases hs : d.version.satisfies ver = true
    · simp [NpmDependency.check_version, hf, NpmDependency.is_satisfied_by, hv, hs]
    · rw [if_neg (by simpa using hs)]
      simp only [Bool.not_eq_true] at hs
      simp [NpmDependency.check_version, hf, NpmDependency.is_satisfied_by, hv, hs]

/-- C2 (witness): the amended theorem at the dependency built from
`"^0.12"`, once with a failing fetch and once with a fetch returning
`"0.13.0"`, which does not satisfy the constraint. -/
theorem c2_witness :
    NpmDependency.check_version (fun _ => .error "connection refused") axiosDep =
      some (.error "connection refused") ∧
    NpmDependency.check_version (fun _ => .ok ⟨"0.13.0"⟩) axiosDep =
      some (.ok (some ⟨"axios", ">=0.12.0 <0.13.0", "0.13.0"⟩)) := by
  constructor
  · exact (c2_check_version_composition axiosDep
      (fun _ => .error "connection refused")).1 "connection refused" rfl
  · have h := (c2_check_version_composition axiosDep
      (fun _ => .ok ⟨"0.13.0"⟩)).2 ⟨"0.13.0"⟩ ⟨0, 13, 0, [], []⟩ rfl (by decide)
    rw [if_neg (by decide)] at h
    simpa [axiosDep, rangeToString, boundSetToString, versionToString] using h

/-- C2 (counterexample): the claim says the mismatch carries the
constraint's original textual form as given in the manifest.  For the
manifest text `"^0.12"` the mismatch's constraint field is
`">=0.12.0 <0.13.0"` — the serialization of the parsed range — not
`"^0.12"`.  Moreover `"^0.12"` and `"^0.12.0"` parse to the same range
value, and the mismatch is built from that parsed value only
(`self.version.to_string()`, `src/npm.rs` line 112), so the two
dependencies produce identical constraint fields and no serialization
could return each one's original text. -/
theorem c2_counterexample :
    (NpmDependency.try_new "axios" "^0.12").map
        (NpmDependency.check_version (fun _ => .ok ⟨"0.13.0"⟩)) =
      some (some (.ok (some ⟨"axios", ">=0.12.0 <0.13.0", "0.13.0"⟩))) ∧
    (NpmDependency.try_new "axios" "^0.12.0").map
        (NpmDependency.check_version (fun _ => .ok ⟨"0.13.0"⟩)) =
      some (some (.ok (some ⟨"axios", ">=0.12.0 <0.13.0", "0.13.0"⟩))) ∧
    ">=0.12.0 <0.13.0" ≠ "^0.12" ∧ ">=0.12.0 <0.13.0" ≠ "^0.12.0" := by
  refine ⟨rfl, rfl, by decide, by decide⟩

/-! ### Claim C6 — partitioning outcomes into mismatches and errors -/

/-- The mismatches surviving collection are exactly the `Ok(Some(_))`
outcomes, in input order. -/
theorem collectResults_toOption
    (outcomes : List (Except String (Option VersionMismatch))) :
    (collectResults outcomes).filterMap Except.toOption =
      mismatchesOfOutcomes outcomes := by
  induction outcomes with
  | nil => rfl
  | cons o os ih =>
    cases o with
    | error e =>
      simp_all [collectResults, List.filterMap_cons, mismatchesOfOutcomes,
        Except.toOption]
    | ok m =>
      cases m <;>
        simp_all [collectResults, List.filterMap_cons, mismatchesOfOutcomes,
          Except.toOption]

/-- The errors surviving collection are exactly the `Err(_)` outcomes, in
input order. -/
theorem collectResults_errors
    (outcomes : List (Except String (Option VersionMismatch))) :
    errorsOfResults (collectResults outcomes) = errorsOfOutcomes outcomes := by
  induction outcomes with
  | nil => rfl
  | cons o os ih =>
    cases o with
    | error e =>
      simp_all [collectResults, errorsOfResults, errorsOfOutcomes,
        List.filterMap_cons]
    | ok m =>
      cases m <;>
        simp_all [collectResults, errorsOfResults, errorsOfOutcomes,
          List.filterMap_cons]

/-- C6: partitioning the per-dependency outcomes — the collection stage of
`check_dependencies` followed by `handle_dependency_result` — drops the
`NoMismatch` (`Ok(None)`) entries, collects the mismatches in input order,
and collects the errors in input order into the combined
`DependencyCheckErrors` value. -/
theorem c6_partition_outcomes
    (outcomes : List (Except String (Option VersionMismatch))) :
    handle_dependency_result (collectResults outcomes) =
      (mismatchesOfOutcomes outcomes,
       DependencyCheckErrors.new (errorsOfOutcomes outcomes)) := by
  rw [handle_dependency_result_eq, collectResults_toOption, collectResults_errors]

/-! ### Claim C3 — overall run failure -/

/-- C3: from the check results onward, the overall `check_npm` run fails
exactly when the combined error list collected from all dependency checks
(regular, plus dev when included) is nonempty; a run that finds only
mismatches and no errors returns `Ok`. -/
theorem c3_run_fails_iff_errors
    (results devResults : List (Except String VersionMismatch))
    (include_dev : Bool) :
    (check_npm results include_dev devResults).toBool = false ↔
      errorsOfResults results ++
        (if include_dev then errorsOfResults devResults else []) ≠ [] := by
  have herr : (to_mismatches results include_dev devResults).2.errors =
      errorsOfResults results ++
        (if include_dev then errorsOfResults devResults else []) := by
    unfold to_mismatches
    rw [handle_dependency_result_eq, handle_dependency_result_eq]
    cases include_dev <;>
      simp [DependencyCheckErrors.join, DependencyCheckErrors.new,
        DependencyCheckErrors.default]
  simp only [check_npm]
  rw [herr]
  by_cases hE : errorsOfResults results ++
      (if include_dev then errorsOfResults devResults else []) = []
  · simp [hE, Except.toBool]
  · simp [hE, Except.toBool, List.isEmpty_iff]

/-! ### Claim C7 — execution order of the batch checker -/

/-- The loop trace over `n` dependencies has two events per dependency. -/
theorem checkDependenciesTrace_length (n : Nat) :
    (checkDependenciesTrace n).length = 2 * n := by
  induction n with
  | zero => rfl
  | succ n ih => simp [checkDependenciesTrace, ih]; omega

/-- Position `2k` of the loop trace is the start of check `k`. -/
theorem checkDependenciesTrace_start (n k : Nat) (h : k < n) :
    (checkDependenciesTrace n)[2 * k]? = some (CheckEvent.start k) := by
  induction n with
  | zero => omega
  | succ n ih =>
    rw [checkDependenciesTrace]
    rcases Nat.lt_or_ge k n with hk | hk
    · rw [List.getElem?_append_left (by rw [checkDependenciesTrace_length]; omega)]
      exact ih hk
    · have hkn : k = n := by omega
      subst hkn
      rw [List.getElem?_append_right (by rw [checkDependenciesTrace_length])]
      rw [checkDependenciesTrace_length]
      simp

/-- Position `2k + 1` of the loop trace is the completion of check `k`. -/
theorem checkDependenciesTrace_finish (n k : Nat) (h : k < n) :
    (checkDependenciesTrace n)[2 * k + 1]? = some (CheckEvent.finish k) := by
  induction n with
  | zero => omega
  | succ n ih =>
    rw [checkDependenciesTrace]
    rcases Nat.lt_or_ge k n with hk | hk
    · rw [List.getElem?_append_left (by rw [checkDependenciesTrace_length]; omega)]
      exact ih hk
    · have hkn : k = n := by omega
      subst hkn
      rw [List.getElem?_append_right (by rw [checkDependenciesTrace_length]; omega)]
      rw [checkDependenciesTrace_length]
      have hone : 2 * k + 1 - 2 * k = 1 := by omega
      rw [hone]
      simp

/-- C7 (counterexample): the claim says the checker runs the per-dependency
checks concurrently, no check blocking another's start, one task per
dependency.  The loop in `src/lib.rs` lines 92-94 awaits each
`check_version` future inside the loop body before the next iteration, so
its only possible event order over two dependencies is strictly
sequential: check 1 starts only after check 0 has finished — check 0
blocks check 1's start, and no concurrent task is ever spawned. -/
theorem c7_counterexample :
    checkDependenciesTrace 2 =
      [CheckEvent.start 0, CheckEvent.finish 0,
       CheckEvent.start 1, CheckEvent.finish 1] := by
  decide

/-- C7 (amended): the dependency set checker runs the checks sequentially
in input order — for any two dependencies `i < j`, check `i`'s completion
occurs in the trace strictly before check `j`'s start. -/
theorem c7_sequential_checks (n i j : Nat) (hij : i < j) (hjn : j < n) :
    ∃ p q : Nat, p < q ∧
      (checkDependenciesTrace n)[p]? = some (CheckEvent.finish i) ∧
      (checkDependenciesTrace n)[q]? = some (CheckEvent.start j) :=
  ⟨2 * i + 1, 2 * j, by omega,
    checkDependenciesTrace_finish n i (by omega),
    checkDependenciesTrace_start n j hjn⟩

/-- C7 (witness): the amended theorem at two dependencies. -/
theorem c7_witness :
    ∃ p q : Nat, p < q ∧
      (checkDependenciesTrace 2)[p]? = some (CheckEvent.finish 0) ∧
      (checkDependenciesTrace 2)[q]? = some (CheckEvent.start 1) :=
  c7_sequential_checks 2 0 1 (by decide) (by decide)
